import Mathlib

/-!
Verification development for the TGSRTC bus-maps repository.

This file gives a shallow embedding, in Lean 4, of the route-consolidation
engine (`src/generators/interactive_map.py`, `src/generators/network_map.py`,
`src/data/gtfs_loader.py`, `src/utils/geo.py`, `src/config.py`) and of the
journey planner (`old_scripts/gtfs_trip_planner.py`, including the JavaScript
`findRoutesRaptor` it emits), together with theorems settling the testable
properties stated for those components.

Conventions of the embedding:
* pandas tables become lists of structure values, one structure per row;
* Python dicts whose iteration order matters become association lists or
  functions to `Option`;
* floats used only for exact arithmetic (Jaccard ratios, coordinates) become
  rationals; machine times become `Int` minutes;
* `pd.to_numeric(..., errors = coerce)` results become `Option` fields where
  `none` plays the role of NaN;
* Python string comparison (code-point lexicographic) is `strLe` below,
  stated on the underlying character lists so that it evaluates by `decide`;
* stable sorts (`list.sort`, pandas `sort_values` in the tie-free situations
  the theorems exercise) become `List.insertionSort`.
-/

/-- Python string `<=` (code-point lexicographic), stated on character
lists so that concrete comparisons reduce in the kernel. -/
def strLe (a b : String) : Prop := a.toList ≤ b.toList

instance : DecidableRel strLe := fun a b => inferInstanceAs (Decidable (a.toList ≤ b.toList))

instance : IsTotal String strLe := ⟨fun a b => le_total a.toList b.toList⟩

instance : IsTrans String strLe := ⟨fun _ _ _ h1 h2 => le_trans h1 h2⟩

instance : IsRefl String strLe := ⟨fun a => le_refl a.toList⟩

/-- Constant `config.MERGE_THRESHOLD`: routes with more than 30% stop overlap are
merged as bidirectional. -/
def MERGE_THRESHOLD : ℚ := 3 / 10

/-- Function `utils.geo.calculate_route_overlap`: Jaccard similarity between two sets
of stop ids.  Returns 0 when either set is empty, otherwise
`|A ∩ B| / |A ∪ B|`. -/
def calculate_route_overlap (stops1 stops2 : Finset String) : ℚ :=
  if stops1 = ∅ ∨ stops2 = ∅ then 0
  else
    let intersection := (stops1 ∩ stops2).card
    let union := (stops1 ∪ stops2).card
    if 0 < union then (intersection : ℚ) / (union : ℚ) else 0

/-- Splitting a character list at a separator, as Python `str.split(sep)`
does for a one-character separator: `"a:b:c" ↦ ["a","b","c"]`, and the
empty string yields `[""]`. -/
def splitOnChar (sep : Char) : List Char → List (List Char)
  | [] => [[]]
  | c :: rest =>
    let parts := splitOnChar sep rest
    if c = sep then [] :: parts
    else
      match parts with
      | [] => [[c]]
      | p :: ps => (c :: p) :: ps

/-- Accumulator pass over decimal digits; `none` as soon as a character is
not a digit. -/
def digitsValAux (acc : Nat) : List Char → Option Nat
  | [] => some acc
  | c :: rest =>
    if c.isDigit then digitsValAux (acc * 10 + (c.toNat - '0'.toNat)) rest else none

/-- Value of a nonempty list of decimal digits; `none` if empty or any
character is not a digit (the failure mode of Python `int`). -/
def digitsVal : List Char → Option Nat
  | [] => none
  | c :: rest => digitsValAux 0 (c :: rest)

/-- Python `int(s)` on a clock-time field: an optional sign followed by
decimal digits; anything else fails. -/
def parseIntChars : List Char → Option Int
  | [] => none
  | c :: rest =>
    if c = '-' then (digitsVal rest).map (fun n => -(n : Int))
    else if c = '+' then (digitsVal rest).map (fun n => (n : Int))
    else (digitsVal (c :: rest)).map (fun n => (n : Int))

/-- Function `time_to_minutes` from `old_scripts/gtfs_trip_planner.py`: split the
clock string on `:` and return `hours * 60 + minutes`; any failure
(no second field, unparseable field) yields `none`.  The seconds field is
never read. -/
def time_to_minutes (t : String) : Option Int :=
  match splitOnChar ':' t.toList with
  | p0 :: p1 :: _ =>
    match parseIntChars p0, parseIntChars p1 with
    | some h, some m => some (h * 60 + m)
    | _, _ => none
  | _ => none

/-- One stored per-segment travel-time estimate, from the
`route_travel_times` loop of `build_indices`: the gap in minutes between
this stop's departure and the next stop's arrival, with a negative gap
replaced by 3 and the result clamped to `[1, 30]`; an unparseable time on
either side stores 3 outright. -/
def segmentEstimate (dep arr : String) : Int :=
  match time_to_minutes dep, time_to_minutes arr with
  | some t1, some t2 =>
    let diff := t2 - t1
    let diff2 := if diff < 0 then 3 else diff
    max 1 (min diff2 30)
  | _, _ => 3

/-! ## Feed tables (Feed Access Layer contract, §6)

One structure per row of the GTFS tables the engine and planner read. -/

/-- A row of `trips.txt`: trip id, owning route, optional direction flag. -/
structure TripRow where
  trip_id : String
  route_id : String
  direction_id : Option String
deriving DecidableEq, Repr

/-- A row of `stop_times.txt` restricted to the fields the engine uses.
`stop_sequence` is numeric per `GTFS_DTYPES` in `config.py`. -/
structure VisitRow where
  trip_id : String
  stop_id : String
  stop_sequence : Int
deriving DecidableEq, Repr

/-- A row of `stops.txt` after `pd.to_numeric(..., errors = coerce)` on the
coordinate columns: `none` stands for NaN / unparseable. -/
structure StopRow where
  stop_id : String
  stop_name : String
  stop_lat : Option ℚ
  stop_lon : Option ℚ
deriving DecidableEq, Repr

/-- A row of `routes.txt`; `none` models a missing (NaN-free) name field and
the empty string a present-but-falsy one, matching the
`short or long or id` fallback chain. -/
structure RouteRow where
  route_id : String
  route_short_name : Option String
  route_long_name : Option String
deriving DecidableEq, Repr

/-- Python `a or b` for an optional string `a`: `none` and `""` are falsy. -/
def pyOrStr (a : Option String) (b : String) : String :=
  match a with
  | some s => if s = "" then b else s
  | none => b

/-- Display name of a route: short name, else long name, else the id. -/
def routeDisplayName (r : RouteRow) : String :=
  pyOrStr r.route_short_name (pyOrStr r.route_long_name r.route_id)

/-- The `route_names` lookup built by both generators:
`route_names.get(route_id, route_id)`. -/
def routeNameOf (routes : List RouteRow) (rid : String) : String :=
  match routes.find? (fun r => r.route_id == rid) with
  | some r => routeDisplayName r
  | none => rid

/-! ## Representative-trip selection (`GTFSLoader.get_representative_trips`) -/

/-- Number of stop-time rows of a trip: `stop_times.groupby(trip_id).size()`
evaluated at one trip id. -/
def visitCount (visits : List VisitRow) (tid : String) : Nat :=
  visits.countP (fun v => v.trip_id == tid)

/-- A `trips` row after the inner merge with the per-trip visit counts and
the `direction_id` fill: only trips with at least one stop-time row
survive, and a missing direction flag becomes `"0"`. -/
structure EnrichedTrip where
  trip_id : String
  route_id : String
  direction_id : String
  stop_count : Nat
deriving DecidableEq, Repr

/-- The merge `trips.merge(trip_counts, on = trip_id)` followed by
`direction_id.fillna("0")`. -/
def tripsEnriched (trips : List TripRow) (visits : List VisitRow) : List EnrichedTrip :=
  trips.filterMap (fun t =>
    let c := visitCount visits t.trip_id
    if c = 0 then none
    else some ⟨t.trip_id, t.route_id, t.direction_id.getD "0", c⟩)

/-- Descending order on visit counts, the key of
`sort_values(stop_count, ascending = False)`. -/
def countGe (a b : EnrichedTrip) : Prop := b.stop_count ≤ a.stop_count

instance : DecidableRel countGe := fun a b => inferInstanceAs (Decidable (b.stop_count ≤ a.stop_count))

instance : IsTotal EnrichedTrip countGe := ⟨fun a b => le_total b.stop_count a.stop_count⟩

instance : IsTrans EnrichedTrip countGe := ⟨fun _ _ _ h1 h2 => le_trans h2 h1⟩

instance : IsRefl EnrichedTrip countGe := ⟨fun a => le_refl a.stop_count⟩

/-- The `(route_id, direction_id)` key that `drop_duplicates` deduplicates
on. -/
def repKey (t : EnrichedTrip) : String × String := (t.route_id, t.direction_id)

/-- Generic first-keeper deduplication by a key, the behaviour of
`DataFrame.drop_duplicates` and of the planner's `seen`-set loop: keep each
row whose key has not been seen before. -/
def dedupByKey {α κ : Type} [DecidableEq κ] (key : α → κ) : List α → List κ → List α
  | [], _ => []
  | a :: rest, seen =>
    if key a ∈ seen then dedupByKey key rest seen
    else a :: dedupByKey key rest (key a :: seen)

/-- Method `GTFSLoader.get_representative_trips` (and the identical inline code of
`NetworkMapGenerator._build_features`): enrich trips with visit counts,
sort by count descending, and keep the first row per
`(route_id, direction_id)`. -/
def get_representative_trips (trips : List TripRow) (visits : List VisitRow) :
    List EnrichedTrip :=
  dedupByKey repKey (List.insertionSort countGe (tripsEnriched trips visits)) []

/-! ## Route geometry building (`InteractiveMapGenerator._build_route_geometries`,
and the identical inline block of `NetworkMapGenerator._build_features`) -/

/-- A stop-time row joined (`merge(..., how = left)`) with its stop's name
and coordinates; a stop id absent from `stops` leaves NaN (`none`) fields. -/
structure JoinedVisit where
  stop_id : String
  stop_sequence : Int
  stop_name : Option String
  stop_lat : Option ℚ
  stop_lon : Option ℚ
deriving DecidableEq, Repr

/-- Left-join of one stop-time row against the stops table. -/
def joinVisit (stops : List StopRow) (v : VisitRow) : JoinedVisit :=
  match stops.find? (fun s => s.stop_id == v.stop_id) with
  | some s => ⟨v.stop_id, v.stop_sequence, some s.stop_name, s.stop_lat, s.stop_lon⟩
  | none => ⟨v.stop_id, v.stop_sequence, none, none, none⟩

/-- Ascending order on `stop_sequence`, the key of
`sort_values(stop_sequence)`. -/
def seqLe (a b : JoinedVisit) : Prop := a.stop_sequence ≤ b.stop_sequence

instance : DecidableRel seqLe := fun a b => inferInstanceAs (Decidable (a.stop_sequence ≤ b.stop_sequence))

instance : IsTotal JoinedVisit seqLe := ⟨fun a b => le_total a.stop_sequence b.stop_sequence⟩

instance : IsTrans JoinedVisit seqLe := ⟨fun _ _ _ h1 h2 => le_trans h1 h2⟩

/-- The stop visits of one trip, joined with the stops table and sorted by
sequence number: `st_geo[st_geo.trip_id == trip_id].sort_values(stop_sequence)`. -/
def tripJoinedVisits (visits : List VisitRow) (stops : List StopRow) (tid : String) :
    List JoinedVisit :=
  List.insertionSort seqLe ((visits.filter (fun v => v.trip_id == tid)).map (joinVisit stops))

/-- Python `str(...)` on a possibly-NaN name cell. -/
def strOfCell (c : Option String) : String := c.getD "nan"

/-- The per-direction geometry record stored in the `geometries` dict:
coordinate list (lon, lat; rows with a NaN coordinate dropped), the set of
visited stop ids, first and last visited stop name, and the coordinate
count. -/
structure DirGeom where
  coords : List (ℚ × ℚ)
  stop_ids : Finset String
  startName : String
  endName : String
  count : Nat
deriving DecidableEq

/-- Geometry of one representative trip; `none` when the trip has no
stop-time rows at all (`if trip_stops.empty: continue`).  Visits lacking a
parseable coordinate are dropped from `coords` but still counted in
`stop_ids` and still eligible as first/last name. -/
def buildGeom (visits : List VisitRow) (stops : List StopRow) (tid : String) :
    Option DirGeom :=
  match tripJoinedVisits visits stops tid with
  | [] => none
  | first :: rest =>
    let ts := first :: rest
    let coords := ts.filterMap (fun v =>
      match v.stop_lon, v.stop_lat with
      | some lo, some la => some (lo, la)
      | _, _ => none)
    some {
      coords := coords
      stop_ids := (ts.map (fun v => v.stop_id)).toFinset
      startName := strOfCell first.stop_name
      endName := strOfCell ((rest.getLastD first).stop_name)
      count := coords.length }

/-- The `geometries` dict in representative-trip order: one
`((route_id, direction_id), geometry)` entry per representative trip with at
least one stop-time row. -/
def buildRouteGeometries (rep : List EnrichedTrip) (visits : List VisitRow)
    (stops : List StopRow) : List ((String × String) × DirGeom) :=
  rep.filterMap (fun r =>
    (buildGeom visits stops r.trip_id).map (fun g => ((r.route_id, r.direction_id), g)))

/-! ## Feature creation with smart merging
(`InteractiveMapGenerator._create_geojson_features`,
`NetworkMapGenerator._build_features`) -/

/-- The distinct route ids of the geometry list, in first-encounter order:
the iteration order of the `route_directions` dict. -/
def routeIdsInOrder (geoms : List ((String × String) × DirGeom)) : List String :=
  dedupByKey (fun s => s) (geoms.map (fun p => p.1.1)) []

/-- The inner per-route dict `route_directions[route_id]`, in insertion
order: direction id paired with its geometry. -/
def dirsForRoute (geoms : List ((String × String) × DirGeom)) (rid : String) :
    List (String × DirGeom) :=
  geoms.filterMap (fun p => if p.1.1 = rid then some (p.1.2, p.2) else none)

/-- Dict lookup on the per-route direction map. -/
def lookupDir (dirs : List (String × DirGeom)) (d : String) : Option DirGeom :=
  (dirs.find? (fun p => p.1 == d)).map (fun p => p.2)

/-- A GeoJSON feature of the interactive map, reduced to its properties and
geometry. -/
structure Feature where
  id : String
  route_name : String
  search_text : String
  desc : String
  stops_count : Nat
  ftype : String
  coordinates : List (ℚ × ℚ)
deriving DecidableEq, Repr

/-- The features emitted for one route by
`InteractiveMapGenerator._create_geojson_features`: one merged bidirectional
feature when both directions are present and their stop-id Jaccard overlap
strictly exceeds `MERGE_THRESHOLD` (geometry taken from the direction with
the larger coordinate count, ties favouring direction 0), otherwise one
one-way feature per present direction. -/
def featuresForRoute (rid rname : String) (dirs : List (String × DirGeom)) :
    List Feature :=
  match lookupDir dirs "0", lookupDir dirs "1" with
  | some d0, some d1 =>
    if calculate_route_overlap d0.stop_ids d1.stop_ids > MERGE_THRESHOLD then
      let d := if d0.count ≥ d1.count then d0 else d1
      [{ id := rid ++ "_bidir"
         route_name := rname
         search_text := rname ++ " (Bidirectional)"
         desc := d.startName ++ " ↔ " ++ d.endName
         stops_count := d.count
         ftype := "bidirectional"
         coordinates := d.coords }]
    else
      dirs.map (fun p =>
        { id := rid ++ "_" ++ p.1
          route_name := rname
          search_text := rname ++ " (" ++ (if p.1 = "0" then "Outbound" else "Inbound") ++ ")"
          desc := p.2.startName ++ " → " ++ p.2.endName
          stops_count := p.2.count
          ftype := "one_way"
          coordinates := p.2.coords })
  | _, _ =>
    dirs.map (fun p =>
      { id := rid ++ "_" ++ p.1
        route_name := rname
        search_text := rname ++ " (" ++ (if p.1 = "0" then "Outbound" else "Inbound") ++ ")"
        desc := p.2.startName ++ " → " ++ p.2.endName
        stops_count := p.2.count
        ftype := "one_way"
        coordinates := p.2.coords })

/-- Ascending order on the human search label, the key of the final
`features.sort(key = search_text)`. -/
def searchLe (a b : Feature) : Prop := strLe a.search_text b.search_text

instance : DecidableRel searchLe := fun a b => inferInstanceAs (Decidable (strLe a.search_text b.search_text))

instance : IsTotal Feature searchLe := ⟨fun a b => @IsTotal.total String strLe _ a.search_text b.search_text⟩

instance : IsTrans Feature searchLe := ⟨fun _ _ _ h1 h2 => @IsTrans.trans String strLe _ _ _ _ h1 h2⟩

/-- The full feature list of `InteractiveMapGenerator`: representative
trips, geometries, per-route smart merging, then the final stable sort by
search label. -/
def interactiveFeatures (trips : List TripRow) (visits : List VisitRow)
    (stops : List StopRow) (routes : List RouteRow) : List Feature :=
  let geoms := buildRouteGeometries (get_representative_trips trips visits) visits stops
  List.insertionSort searchLe
    ((routeIdsInOrder geoms).flatMap (fun rid =>
      featuresForRoute rid (routeNameOf routes rid) (dirsForRoute geoms rid)))

/-- A GeoJSON feature of the network map, reduced to its properties and
geometry. -/
structure NFeature where
  route_name : String
  search_key : String
  details : String
  stops : Nat
  color : String
  coordinates : List (ℚ × ℚ)
deriving DecidableEq

/-- The features emitted for one route by
`NetworkMapGenerator._build_features`: same merge decision as the
interactive map, with the network map's labels and colours. -/
def networkFeaturesForRoute (rid rname : String) (dirs : List (String × DirGeom)) :
    List NFeature :=
  match lookupDir dirs "0", lookupDir dirs "1" with
  | some d0, some d1 =>
    if calculate_route_overlap d0.stop_ids d1.stop_ids > MERGE_THRESHOLD then
      let d := if d0.count ≥ d1.count then d0 else d1
      [{ route_name := rname
         search_key := rname ++ " (Bidirectional)"
         details := d.startName ++ " ↔ " ++ d.endName
         stops := d.count
         color := "#3388ff"
         coordinates := d.coords }]
    else
      dirs.map (fun p =>
        { route_name := rname
          search_key := rname ++ " " ++ (if p.1 = "0" then "(Outbound)" else "(Inbound)")
          details := p.2.startName ++ " → " ++ p.2.endName
          stops := p.2.count
          color := if p.1 = "0" then "#ff3333" else "#33aa33"
          coordinates := p.2.coords })
  | _, _ =>
    dirs.map (fun p =>
      { route_name := rname
        search_key := rname ++ " " ++ (if p.1 = "0" then "(Outbound)" else "(Inbound)")
        details := p.2.startName ++ " → " ++ p.2.endName
        stops := p.2.count
        color := if p.1 = "0" then "#ff3333" else "#33aa33"
        coordinates := p.2.coords })

/-- The full feature list of `NetworkMapGenerator._build_features`:
identical pipeline up to feature assembly, but with no final sort — the
features stay in route first-encounter order. -/
def networkFeatures (trips : List TripRow) (visits : List VisitRow)
    (stops : List StopRow) (routes : List RouteRow) : List NFeature :=
  let geoms := buildRouteGeometries (get_representative_trips trips visits) visits stops
  (routeIdsInOrder geoms).flatMap (fun rid =>
    networkFeaturesForRoute rid (routeNameOf routes rid) (dirsForRoute geoms rid))

/-! ## Journey planner: direct-itinerary scan
(the first loop of `findRoutesRaptor` in the JavaScript emitted by
`old_scripts/gtfs_trip_planner.py`) -/

/-- The scanning loop over the route's ordered stop sequence: `o` is
`originIdx` (`none` for `-1`), `d` is `destIdx`.  At index `i` the loop body
first records `i` as origin index if the stop is an origin stop and no
origin index is set yet, then records `i` as destination index whenever the
stop is a destination stop and `i` is greater than the (current) origin
index. -/
def directScanAux (originStops destStops : List String) :
    List String → Nat → Option Nat → Option Nat → Option Nat × Option Nat
  | [], _, o, d => (o, d)
  | sid :: rest, i, none, d =>
    if sid ∈ originStops then
      directScanAux originStops destStops rest (i + 1) (some i)
        (if sid ∈ destStops ∧ i < i then some i else d)
    else directScanAux originStops destStops rest (i + 1) none d
  | sid :: rest, i, some oi, d =>
    directScanAux originStops destStops rest (i + 1) (some oi)
      (if sid ∈ destStops ∧ oi < i then some i else d)

/-- The direct-route scan of `findRoutesRaptor`: returns the final
`(originIdx, destIdx)` pair. -/
def directScan (stops originStops destStops : List String) : Option Nat × Option Nat :=
  directScanAux originStops destStops stops 0 none none

/-- Lookup `travelTimes[i] || 3` of the JavaScript: a missing entry — and the
falsy value 0, which the stored estimates never take — falls back to 3. -/
def travelTimeAt (tt : List Nat) (i : Nat) : Nat :=
  match tt.get? i with
  | some v => if v = 0 then 3 else v
  | none => 3

/-- The loop `for (i = originIdx; i < destIdx; i++) duration += travelTimes[i] || 3`. -/
def segmentDuration (tt : List Nat) (a b : Nat) : Nat :=
  ((List.range (b - a)).map (fun k => travelTimeAt tt (a + k))).sum

/-- The segment a direct itinerary records: start index, end index and
duration. -/
structure DirectSegment where
  startIdx : Nat
  endIdx : Nat
  duration : Nat
deriving DecidableEq, Repr

/-- One route's contribution to the direct-itinerary list: the scan, the
`originIdx >= 0 && destIdx > originIdx` guard, and the duration sum. -/
def directItinerary (stops originStops destStops : List String) (tt : List Nat) :
    Option DirectSegment :=
  match directScan stops originStops destStops with
  | (some oi, some di) =>
    if oi < di then some ⟨oi, di, segmentDuration tt oi di⟩ else none
  | _ => none

/-! ## Journey planner: result ranking
(`results.sort(...)` and the `seen`-set loop of `findRoutesRaptor`) -/

/-- An itinerary result, reduced to the fields the ranking code reads. -/
structure Itinerary where
  routes : List String
  transfers : Nat
  duration : Nat
deriving DecidableEq, Repr

/-- The comparator `(a, b) => a.duration - b.duration || a.transfers -
b.transfers`: duration ascending, ties by transfer count ascending. -/
def itinLe (a b : Itinerary) : Prop :=
  a.duration < b.duration ∨ (a.duration = b.duration ∧ a.transfers ≤ b.transfers)

instance : DecidableRel itinLe := fun a b =>
  inferInstanceAs (Decidable (a.duration < b.duration ∨ (a.duration = b.duration ∧ a.transfers ≤ b.transfers)))

instance : IsTotal Itinerary itinLe := ⟨fun a b => by
  rcases lt_trichotomy a.duration b.duration with h | h | h
  · exact Or.inl (Or.inl h)
  · rcases le_total a.transfers b.transfers with h2 | h2
    · exact Or.inl (Or.inr ⟨h, h2⟩)
    · exact Or.inr (Or.inr ⟨h.symm, h2⟩)
  · exact Or.inr (Or.inl h)⟩

instance : IsTrans Itinerary itinLe := ⟨fun a b c h1 h2 => by
  rcases h1 with h1 | ⟨e1, t1⟩ <;> rcases h2 with h2 | ⟨e2, t2⟩
  · exact Or.inl (lt_trans h1 h2)
  · exact Or.inl (e2 ▸ h1)
  · exact Or.inl (e1 ▸ h2)
  · exact Or.inr ⟨e1.trans e2, le_trans t1 t2⟩⟩

instance : IsRefl Itinerary itinLe := ⟨fun a => Or.inr ⟨rfl, le_refl _⟩⟩

/-- The key `r.routes.join("-")` that the `seen` set deduplicates on. -/
def routesKey (r : Itinerary) : String := String.intercalate "-" r.routes

/-- The final ranking of `findRoutesRaptor`: sort by duration (ties by
transfers), keep the first result per `routes.join("-")` key, and stop
after five results. -/
def rankItineraries (results : List Itinerary) : List Itinerary :=
  (dedupByKey routesKey (List.insertionSort itinLe results) []).take 5

/-! ## Journey planner: per-route representative trips and stop sequences
(steps 4 and 5 of `build_indices` in `old_scripts/gtfs_trip_planner.py`) -/

/-- The `trip_to_route` dict: built row by row, so a duplicated trip id
keeps the last row's route. -/
def tripToRoute (trips : List TripRow) (tid : String) : Option String :=
  trips.foldl (fun acc t => if t.trip_id == tid then some t.route_id else acc) none

/-- The keys of `stop_times.groupby(trip_id).size()` in iteration order:
the distinct trip ids, sorted ascending (pandas groupby sorts its keys). -/
def sortedTripIds (visits : List VisitRow) : List String :=
  List.insertionSort strLe (dedupByKey (fun s => s) (visits.map (fun v => v.trip_id)) [])

/-- The `(tid, cnt)` pairs of `trip_stop_counts.items()` in iteration
order. -/
def tripCountItems (visits : List VisitRow) : List (String × Nat) :=
  (sortedTripIds visits).map (fun t => (t, visitCount visits t))

/-- One update of the `route_rep_trips` dict:
`if rid not in route_rep_trips or cnt > route_rep_trips[rid][1]`. -/
def plannerUpd (m : String → Option (String × Nat)) (rid tid : String) (cnt : Nat) :
    String → Option (String × Nat) :=
  fun r =>
    if r = rid then
      match m rid with
      | none => some (tid, cnt)
      | some (t0, c0) => if c0 < cnt then some (tid, cnt) else some (t0, c0)
    else m r

/-- The `route_rep_trips` loop body over the counted trip ids; `if rid:`
skips trips with no route and a falsy (empty) route id. -/
def routeRepTripsFold (trips : List TripRow) :
    List (String × Nat) → (String → Option (String × Nat)) → String → Option (String × Nat)
  | [], m => m
  | (tid, cnt) :: rest, m =>
    routeRepTripsFold trips rest
      (match tripToRoute trips tid with
       | some rid => if rid = "" then m else plannerUpd m rid tid cnt
       | none => m)

/-- The dict `route_rep_trips` as a lookup: route id to its selected
`(trip id, visit count)` pair. -/
def route_rep_trips (trips : List TripRow) (visits : List VisitRow) :
    String → Option (String × Nat) :=
  routeRepTripsFold trips (tripCountItems visits) (fun _ => none)

/-- Ascending order on a raw stop-time row's sequence number, the key of
the planner's `sort_values(stop_sequence)`. -/
def vseqLe (a b : VisitRow) : Prop := a.stop_sequence ≤ b.stop_sequence

instance : DecidableRel vseqLe := fun a b => inferInstanceAs (Decidable (a.stop_sequence ≤ b.stop_sequence))

instance : IsTotal VisitRow vseqLe := ⟨fun a b => le_total a.stop_sequence b.stop_sequence⟩

instance : IsTrans VisitRow vseqLe := ⟨fun _ _ _ h1 h2 => le_trans h1 h2⟩

/-- The ordered stop-id sequence of one trip:
`stop_times[trip_id == tid].sort_values(stop_sequence).stop_id.tolist()`. -/
def routeStopsOfTrip (visits : List VisitRow) (tid : String) : List String :=
  (List.insertionSort vseqLe (visits.filter (fun v => v.trip_id == tid))).map
    (fun v => v.stop_id)

/-- The planner's `routeStops[rid]`: the ordered stop-id sequence of the
trip `route_rep_trips` selected for the route. -/
def route_stops (trips : List TripRow) (visits : List VisitRow) (rid : String) :
    Option (List String) :=
  (route_rep_trips trips visits rid).map (fun p => routeStopsOfTrip visits p.1)

/-- Reference fold for the dict-cell analysis: the planner's keep/replace
rule run over one route's `(tid, cnt)` items with an explicit
accumulator. -/
def bestTripAux : List (String × Nat) → Option (String × Nat) → Option (String × Nat)
  | [], acc => acc
  | (t, c) :: rest, acc =>
    bestTripAux rest
      (match acc with
       | none => some (t, c)
       | some (t0, c0) => if c0 < c then some (t, c) else some (t0, c0))

/-! ## Reference functions for the direct-scan analysis -/

/-- Index of the first element belonging to the given stop set. -/
def firstHit (oS : List String) : List String → Option Nat
  | [] => none
  | s :: rest => if s ∈ oS then some 0 else (firstHit oS rest).map (fun k => k + 1)

/-- Index of the last element belonging to the given stop set. -/
def lastHit (dS : List String) : List String → Option Nat
  | [] => none
  | s :: rest =>
    match lastHit dS rest with
    | some k => some (k + 1)
    | none => if s ∈ dS then some 0 else none

/-- The destination-index phase of the scan, once the origin index is
fixed: every later hit overwrites the recorded index. -/
def lastDestFrom (dS : List String) : List String → Nat → Option Nat → Option Nat
  | [], _, d => d
  | s :: rest, i, d => lastDestFrom dS rest (i + 1) (if s ∈ dS then some i else d)

/-! ## Concrete feed fragments used by the witnesses and counterexamples -/

/-- Two-direction route whose direction-1 trip is longer: used to compare
the engine's per-(route, direction) selection with the planner's per-route
selection. -/
def exTripsR : List TripRow := [⟨"t0", "R", some "0"⟩, ⟨"t1", "R", some "1"⟩]

/-- Visits for `exTripsR`: trip `t0` visits stops `a, b`; trip `t1` visits
`c, d, e`. -/
def exVisitsR : List VisitRow :=
  [⟨"t0", "a", 1⟩, ⟨"t0", "b", 2⟩, ⟨"t1", "c", 1⟩, ⟨"t1", "d", 2⟩, ⟨"t1", "e", 3⟩]

/-- A single stop with unparseable coordinates. -/
def exStopsNoCoord : List StopRow := [⟨"s1", "Stop One", none, none⟩]

/-- A single one-direction route whose only trip visits only `s1`. -/
def exTripsNoCoord : List TripRow := [⟨"t1", "R1", some "0"⟩]

/-- The single visit of `exTripsNoCoord`. -/
def exVisitsNoCoord : List VisitRow := [⟨"t1", "s1", 1⟩]

/-- Route table naming `R1` as `7A`. -/
def exRoutesNoCoord : List RouteRow := [⟨"R1", some "7A", none⟩]

/-- Stops with parseable coordinates for the network-map ordering example. -/
def exStopsBA : List StopRow :=
  [⟨"s1", "S1", some 17, some 78⟩, ⟨"s2", "S2", some 18, some 79⟩, ⟨"s3", "S3", some 19, some 80⟩]

/-- Two one-direction routes; the route named `B` has the longer trip, so
its representative trip sorts first and its feature is emitted first. -/
def exTripsBA : List TripRow := [⟨"u1", "r1", some "0"⟩, ⟨"u2", "r2", some "0"⟩]

/-- Visits for `exTripsBA`: `u2` (route `r2`) has two visits, `u1` one. -/
def exVisitsBA : List VisitRow := [⟨"u1", "s1", 1⟩, ⟨"u2", "s2", 1⟩, ⟨"u2", "s3", 2⟩]

/-- Route names for `exTripsBA`: `r1` is `A`, `r2` is `B`. -/
def exRoutesBA : List RouteRow := [⟨"r1", some "A", none⟩, ⟨"r2", some "B", none⟩]

/-- Four ranked itineraries: two direct, plus the transfer pair `A` then
`B` and the transfer pair `B` then `A` — the same unordered route set in
both orders. -/
def exItins : List Itinerary :=
  [⟨["A"], 0, 10⟩, ⟨["B"], 0, 11⟩, ⟨["A", "B"], 1, 12⟩, ⟨["B", "A"], 1, 13⟩]

/-- Direction-0 geometry with stop set `{S1, S2, S3, S4}` and four
coordinates. -/
def exGeom0 : DirGeom :=
  { coords := [(78, 17), (79, 18), (80, 19), (81, 20)]
    stop_ids := {"S1", "S2", "S3", "S4"}
    startName := "First"
    endName := "Fourth"
    count := 4 }

/-- Direction-1 geometry with stop set `{S2, S3, S4, S5}` (Jaccard overlap
3/5 with `exGeom0`) and three coordinates. -/
def exGeom1 : DirGeom :=
  { coords := [(81, 20), (79, 18), (78, 17)]
    stop_ids := {"S2", "S3", "S4", "S5"}
    startName := "Fourth"
    endName := "First"
    count := 3 }

/-- Direction-1 geometry disjoint from `exGeom0` (Jaccard overlap 0). -/
def exGeom2 : DirGeom :=
  { coords := [(90, 10)]
    stop_ids := {"X1", "X2"}
    startName := "Xa"
    endName := "Xb"
    count := 1 }

/-- Stop sequence of the direct-scan example: origin stop at index 0,
destination stops at indices 1 and 2. -/
def exScanStops : List String := ["o", "d1", "d2"]

/-- Origin stop set of the direct-scan example. -/
def exScanOrigin : List String := ["o"]

/-- Destination stop set of the direct-scan example. -/
def exScanDest : List String := ["d1", "d2"]

/-- Per-segment travel times of the direct-scan example. -/
def exScanTimes : List Nat := [7, 9]

/-! # Theorems -/

/-! ## Generic facts about first-keeper deduplication -/

theorem dedupByKey_sublist {α κ : Type} [DecidableEq κ] (key : α → κ) :
    ∀ (l : List α) (seen : List κ), (dedupByKey key l seen).Sublist l := by
  intro l
  induction l with
  | nil => intro seen; simp [dedupByKey]
  | cons a rest ih =>
    intro seen
    by_cases h : key a ∈ seen
    · simpa [dedupByKey, h] using (ih seen).cons a
    · simpa [dedupByKey, h] using (ih (key a :: seen)).cons₂ a

theorem dedupByKey_key_not_seen {α κ : Type} [DecidableEq κ] (key : α → κ) :
    ∀ (l : List α) (seen : List κ) (x : α),
      x ∈ dedupByKey key l seen → key x ∉ seen := by
  intro l
  induction l with
  | nil => intro seen x hx; simp [dedupByKey] at hx
  | cons a rest ih =>
    intro seen x hx
    by_cases h : key a ∈ seen
    · exact ih seen x (by simpa [dedupByKey, h] using hx)
    · rw [dedupByKey, if_neg h] at hx
      rcases List.mem_cons.mp hx with rfl | hx2
      · exact h
      · have h2 := ih (key a :: seen) x hx2
        exact fun hc => h2 (List.mem_cons_of_mem _ hc)

theorem dedupByKey_pairwise_ne {α κ : Type} [DecidableEq κ] (key : α → κ) :
    ∀ (l : List α) (seen : List κ),
      (dedupByKey key l seen).Pairwise (fun a b => key a ≠ key b) := by
  intro l
  induction l with
  | nil => intro seen; simp [dedupByKey]
  | cons a rest ih =>
    intro seen
    by_cases h : key a ∈ seen
    · simpa [dedupByKey, h] using ih seen
    · rw [dedupByKey, if_neg h]
      refine List.pairwise_cons.mpr ⟨?_, ih (key a :: seen)⟩
      intro b hb
      have h2 := dedupByKey_key_not_seen key rest (key a :: seen) b hb
      exact fun hc => h2 (by simp [hc])

theorem dedupByKey_best {α κ : Type} [DecidableEq κ] (key : α → κ)
    (le : α → α → Prop) [IsRefl α le] :
    ∀ (l : List α) (seen : List κ), l.Sorted le →
      ∀ x, x ∈ dedupByKey key l seen → ∀ s, s ∈ l → key s = key x → le x s := by
  intro l
  induction l with
  | nil => intro seen _ x hx; simp [dedupByKey] at hx
  | cons a rest ih =>
    intro seen hsort x hx s hs hk
    have hsRest : rest.Sorted le := (List.sorted_cons.mp hsort).2
    have hHead : ∀ b ∈ rest, le a b := (List.sorted_cons.mp hsort).1
    by_cases h : key a ∈ seen
    · rw [dedupByKey, if_pos h] at hx
      rcases List.mem_cons.mp hs with rfl | hs2
      · exact absurd (hk ▸ h) (dedupByKey_key_not_seen key rest seen x hx)
      · exact ih seen hsRest x hx s hs2 hk
    · rw [dedupByKey, if_neg h] at hx
      rcases List.mem_cons.mp hx with rfl | hx2
      · rcases List.mem_cons.mp hs with rfl | hs2
        · exact IsRefl.refl _
        · exact hHead s hs2
      · rcases List.mem_cons.mp hs with rfl | hs2
        · have h2 := dedupByKey_key_not_seen key rest (key s :: seen) x hx2
          exact absurd (by simp [hk]) h2
        · exact ih (key a :: seen) hsRest x hx2 s hs2 hk

/-- Evaluation helper: the overlap of two non-empty sets with known
intersection and union cardinalities. -/
theorem calculate_route_overlap_eval {A B : Finset String} {i u : Nat}
    (hne : ¬ (A = ∅ ∨ B = ∅)) (hi : (A ∩ B).card = i) (hu : (A ∪ B).card = u)
    (hupos : 0 < u) : calculate_route_overlap A B = (i : ℚ) / (u : ℚ) := by
  unfold calculate_route_overlap
  rw [if_neg hne]
  simp only [hi, hu, if_pos hupos]

/-! ## C7: properties of the Jaccard overlap -/

/-- C7: `computeOverlap` (Jaccard similarity) is symmetric in its two
arguments; it returns 0 whenever either input set is empty; and it returns
1 whenever the two input sets are equal and non-empty. -/
theorem calculate_route_overlap_jaccard_props (A B : Finset String) :
    calculate_route_overlap A B = calculate_route_overlap B A ∧
    (A = ∅ ∨ B = ∅ → calculate_route_overlap A B = 0) ∧
    (A = B → A ≠ ∅ → calculate_route_overlap A B = 1) := by
  refine ⟨?_, ?_, ?_⟩
  · unfold calculate_route_overlap
    simp only [Finset.inter_comm, Finset.union_comm, or_comm]
  · intro h
    unfold calculate_route_overlap
    rw [if_pos h]
  · intro hAB hA
    subst hAB
    unfold calculate_route_overlap
    have h1 : ¬ (A = ∅ ∨ A = ∅) := by simpa using hA
    rw [if_neg h1]
    have hc : 0 < A.card := Finset.card_pos.mpr (Finset.nonempty_iff_ne_empty.mpr hA)
    simp only [Finset.inter_self, Finset.union_self, if_pos hc]
    exact div_self (Nat.cast_ne_zero.mpr hc.ne')

/-- Witness for C7 at concrete sets. -/
theorem calculate_route_overlap_jaccard_props_witness :
    calculate_route_overlap {"x"} {"x"} = 1 :=
  (calculate_route_overlap_jaccard_props {"x"} {"x"}).2.2 rfl (by decide)

/-! ## C1: merge decision emits one feature or one per direction -/

/-- C1: for every route whose direction map contains both direction `"0"`
and direction `"1"`, the interactive and network generators emit exactly
one feature when the Jaccard overlap of the two stop-id sets strictly
exceeds `MERGE_THRESHOLD`, and otherwise exactly one feature per present
direction. -/
theorem merge_decision_feature_count (rid rname : String)
    (dirs : List (String × DirGeom)) (d0 d1 : DirGeom)
    (h0 : lookupDir dirs "0" = some d0) (h1 : lookupDir dirs "1" = some d1) :
    (featuresForRoute rid rname dirs).length =
      (if MERGE_THRESHOLD < calculate_route_overlap d0.stop_ids d1.stop_ids then 1
       else dirs.length) ∧
    (networkFeaturesForRoute rid rname dirs).length =
      (if MERGE_THRESHOLD < calculate_route_overlap d0.stop_ids d1.stop_ids then 1
       else dirs.length) := by
  unfold featuresForRoute networkFeaturesForRoute
  rw [h0, h1]
  by_cases hj : MERGE_THRESHOLD < calculate_route_overlap d0.stop_ids d1.stop_ids
  · constructor <;> simp [hj, gt_iff_lt]
  · constructor <;> simp [hj, gt_iff_lt]

/-- Witness for C1: the overlap 3/5 exceeds the threshold 3/10, so exactly
one feature is emitted by each generator. -/
theorem merge_decision_feature_count_witness :
    (featuresForRoute "R" "10A" [("0", exGeom0), ("1", exGeom1)]).length = 1 ∧
    (networkFeaturesForRoute "R" "10A" [("0", exGeom0), ("1", exGeom1)]).length = 1 := by
  have h := merge_decision_feature_count "R" "10A" [("0", exGeom0), ("1", exGeom1)]
    exGeom0 exGeom1 (by decide) (by decide)
  have hov : calculate_route_overlap exGeom0.stop_ids exGeom1.stop_ids = (3 : ℚ) / 5 :=
    calculate_route_overlap_eval (by decide) (by decide) (by decide) (by decide)
  have hlt : MERGE_THRESHOLD < calculate_route_overlap exGeom0.stop_ids exGeom1.stop_ids := by
    rw [hov]; norm_num [MERGE_THRESHOLD]
  refine ⟨?_, ?_⟩
  · rw [h.1, if_pos hlt]
  · rw [h.2, if_pos hlt]

/-! ## C4: travel-time clamp -/

/-- C4: every stored per-segment travel-time estimate lies in `[1, 30]`
minutes; a segment whose time gap is negative, or whose arrival or
departure time is unparseable, stores exactly 3. -/
theorem segmentEstimate_clamped (dep arr : String) :
    (1 ≤ segmentEstimate dep arr ∧ segmentEstimate dep arr ≤ 30) ∧
    (time_to_minutes dep = none ∨ time_to_minutes arr = none →
      segmentEstimate dep arr = 3) ∧
    (∀ t1 t2 : Int, time_to_minutes dep = some t1 → time_to_minutes arr = some t2 →
      t2 - t1 < 0 → segmentEstimate dep arr = 3) := by
  refine ⟨?_, ?_, ?_⟩
  · rcases hdep : time_to_minutes dep with _ | t1 <;>
      rcases harr : time_to_minutes arr with _ | t2 <;>
        simp only [segmentEstimate, hdep, harr]
    · exact ⟨by norm_num, by norm_num⟩
    · exact ⟨by norm_num, by norm_num⟩
    · exact ⟨by norm_num, by norm_num⟩
    · exact ⟨le_max_left _ _, max_le (by norm_num) (min_le_right _ _)⟩
  · intro h
    rcases hdep : time_to_minutes dep with _ | t1 <;>
      rcases harr : time_to_minutes arr with _ | t2 <;>
        simp only [segmentEstimate, hdep, harr]
    rcases h with h | h
    · rw [hdep] at h; cases h
    · rw [harr] at h; cases h
  · intro t1 t2 h1 h2 hneg
    simp only [segmentEstimate, h1, h2, if_pos hneg]
    norm_num

/-- Witness for C4: a negative gap stores exactly 3. -/
theorem segmentEstimate_clamped_witness :
    segmentEstimate "10:00:00" "09:00:00" = 3 :=
  (segmentEstimate_clamped "10:00:00" "09:00:00").2.2 600 540 (by decide) (by decide)
    (by decide)

/-! ## C10: only hours and minutes are parsed -/

theorem splitOnChar_append_sep (sep : Char) :
    ∀ (h : List Char), sep ∉ h → ∀ rest,
      splitOnChar sep (h ++ sep :: rest) = h :: splitOnChar sep rest := by
  intro h
  induction h with
  | nil => intro _ rest; simp [splitOnChar]
  | cons c cs ih =>
    intro hmem rest
    have hc : c ≠ sep := fun e => hmem (e ▸ List.mem_cons_self c cs)
    have hcs : sep ∉ cs := fun m => hmem (List.mem_cons_of_mem _ m)
    simp only [List.cons_append, splitOnChar, List.append_eq, ih hcs rest, if_neg hc]

/-- C10: `time_to_minutes` reads only the first two `:`-separated fields of
a clock string, so the seconds field never influences the parsed value —
every gap is computed at whole-minute granularity, and a 30-second positive
gap computes as 0 minutes, clamped up to the stored minimum of 1. -/
theorem time_to_minutes_ignores_seconds (h m s1 s2 : List Char)
    (hh : ':' ∉ h) (hm : ':' ∉ m) :
    time_to_minutes ⟨h ++ ':' :: (m ++ ':' :: s1)⟩ =
      time_to_minutes ⟨h ++ ':' :: (m ++ ':' :: s2)⟩ ∧
    time_to_minutes ⟨h ++ ':' :: (m ++ ':' :: s1)⟩ =
      (match parseIntChars h, parseIntChars m with
       | some hv, some mv => some (hv * 60 + mv)
       | _, _ => none) ∧
    segmentEstimate "08:00:00" "08:00:30" = 1 := by
  have key : ∀ s : List Char,
      time_to_minutes ⟨h ++ ':' :: (m ++ ':' :: s)⟩ =
        (match parseIntChars h, parseIntChars m with
         | some hv, some mv => some (hv * 60 + mv)
         | _, _ => none) := by
    intro s
    unfold time_to_minutes
    have e1 : (String.mk (h ++ ':' :: (m ++ ':' :: s))).toList =
        h ++ ':' :: (m ++ ':' :: s) := rfl
    rw [e1, splitOnChar_append_sep ':' h hh, splitOnChar_append_sep ':' m hm]
  exact ⟨(key s1).trans (key s2).symm, key s1, by decide⟩

/-- Witness for C10: `"08:00:00"` and `"08:00:30"` parse identically. -/
theorem time_to_minutes_ignores_seconds_witness :
    time_to_minutes ⟨['0', '8'] ++ ':' :: (['0', '0'] ++ ':' :: ['0', '0'])⟩ =
      time_to_minutes ⟨['0', '8'] ++ ':' :: (['0', '0'] ++ ':' :: ['3', '0'])⟩ :=
  (time_to_minutes_ignores_seconds ['0', '8'] ['0', '0'] ['0', '0'] ['3', '0']
    (by decide) (by decide)).1

/-! ## C3: itinerary ranking -/

/-- C3 (amended): the ranked itinerary list is sorted by duration ascending
with ties broken by fewer transfers, deduplicated by the ordered
`routes.join("-")` key — not the unordered route set — keeping the
best-ranked itinerary per key, and truncated to at most five entries, each
of which comes from the input list. -/
theorem rank_itineraries_spec (results : List Itinerary) :
    (rankItineraries results).Sorted itinLe ∧
    (rankItineraries results).Pairwise (fun a b => routesKey a ≠ routesKey b) ∧
    (rankItineraries results).length ≤ 5 ∧
    (∀ x, x ∈ rankItineraries results → x ∈ results) ∧
    (∀ x, x ∈ rankItineraries results → ∀ s, s ∈ results →
      routesKey s = routesKey x → itinLe x s) := by
  have hsort := List.sorted_insertionSort itinLe results
  have hsub1 : (dedupByKey routesKey (List.insertionSort itinLe results) []).Sublist
      (List.insertionSort itinLe results) := dedupByKey_sublist routesKey _ []
  have hsub2 : (rankItineraries results).Sublist
      (dedupByKey routesKey (List.insertionSort itinLe results) []) :=
    List.take_sublist 5 _
  have hsub := hsub2.trans hsub1
  refine ⟨?_, ?_, ?_, ?_, ?_⟩
  · exact List.Pairwise.sublist hsub hsort
  · exact List.Pairwise.sublist hsub2 (dedupByKey_pairwise_ne routesKey _ [])
  · exact List.length_take_le 5 _
  · intro x hx
    exact (List.perm_insertionSort itinLe results).subset (hsub.subset hx)
  · intro x hx s hs hk
    exact dedupByKey_best routesKey itinLe _ [] hsort x (hsub2.subset hx) s
      ((List.perm_insertionSort itinLe results).symm.subset hs) hk

/-- Witness for C3's amended theorem at a concrete result list. -/
theorem rank_itineraries_spec_witness :
    itinLe ⟨["A"], 0, 10⟩ ⟨["A"], 0, 10⟩ :=
  (rank_itineraries_spec exItins).2.2.2.2 ⟨["A"], 0, 10⟩ (by decide) ⟨["A"], 0, 10⟩
    (by decide) rfl

/-- Counterexample for C3 as stated: ranking `exItins` keeps both the
`A`-then-`B` and the `B`-then-`A` transfer itineraries, although their
route lists are the same unordered pair — the deduplication key is the
ordered `join("-")` string, not the unordered set. -/
theorem rank_itineraries_unordered_dedupe_cex :
    (rankItineraries exItins).map Itinerary.routes = [["A"], ["B"], ["A", "B"], ["B", "A"]] ∧
    ((["A", "B"] : List String) : Multiset String) = ((["B", "A"] : List String) : Multiset String) ∧
    (["A", "B"] : List String) ≠ ["B", "A"] := by
  refine ⟨by decide, by decide, by decide⟩

/-! ## C5: representative-trip selection -/

theorem mem_tripsEnriched (trips : List TripRow) (visits : List VisitRow)
    (r : EnrichedTrip) :
    r ∈ tripsEnriched trips visits ↔
      ∃ t ∈ trips, visitCount visits t.trip_id ≠ 0 ∧
        r = ⟨t.trip_id, t.route_id, t.direction_id.getD "0", visitCount visits t.trip_id⟩ := by
  unfold tripsEnriched
  rw [List.mem_filterMap]
  constructor
  · rintro ⟨t, ht, heq⟩
    by_cases hc : visitCount visits t.trip_id = 0
    · rw [if_pos hc] at heq; cases heq
    · rw [if_neg hc] at heq
      exact ⟨t, ht, hc, (Option.some_inj.mp heq).symm⟩
  · rintro ⟨t, ht, hc, rfl⟩
    exact ⟨t, ht, by rw [if_neg hc]⟩

/-- C5: `selectRepresentativeTrips` (missing direction flags defaulted to
`"0"`) returns at most one trip per `(route, direction)` pair, and every
returned trip's stop-visit count is at least that of every other trip of
the trips table sharing its `(route, direction)` pair. -/
theorem get_representative_trips_spec (trips : List TripRow) (visits : List VisitRow) :
    (get_representative_trips trips visits).Pairwise (fun a b => repKey a ≠ repKey b) ∧
    ∀ r, r ∈ get_representative_trips trips visits →
      r.stop_count = visitCount visits r.trip_id ∧
      ∀ t, t ∈ trips → (t.route_id, t.direction_id.getD "0") = repKey r →
        visitCount visits t.trip_id ≤ r.stop_count := by
  have hsort := List.sorted_insertionSort countGe (tripsEnriched trips visits)
  have hperm := List.perm_insertionSort countGe (tripsEnriched trips visits)
  have hsub : (get_representative_trips trips visits).Sublist
      (List.insertionSort countGe (tripsEnriched trips visits)) :=
    dedupByKey_sublist repKey _ []
  constructor
  · exact dedupByKey_pairwise_ne repKey _ []
  · intro r hr
    have hrE : r ∈ tripsEnriched trips visits := hperm.subset (hsub.subset hr)
    obtain ⟨t0, _, _, heq⟩ := (mem_tripsEnriched trips visits r).mp hrE
    constructor
    · rw [heq]
    · intro t ht hk
      by_cases hc : visitCount visits t.trip_id = 0
    -- a trip with no stop-time rows trivially has count ≤ the kept count
      · rw [hc]; exact Nat.zero_le _
      · have hmem : (⟨t.trip_id, t.route_id, t.direction_id.getD "0",
            visitCount visits t.trip_id⟩ : EnrichedTrip) ∈ tripsEnriched trips visits :=
          (mem_tripsEnriched trips visits _).mpr ⟨t, ht, hc, rfl⟩
        have hle := dedupByKey_best repKey countGe _ [] hsort r hr _
          (hperm.symm.subset hmem) hk
        exact hle

/-- Witness for C5 at a concrete feed fragment. -/
theorem get_representative_trips_spec_witness :
    visitCount exVisitsR "t0" ≤ 2 :=
  ((get_representative_trips_spec exTripsR exVisitsR).2 ⟨"t0", "R", "0", 2⟩
    (by decide)).2 ⟨"t0", "R", some "0"⟩ (by decide) rfl

/-! ## C9: final feature ordering -/

/-- C9 (amended): the interactive map generator's final feature list is
sorted by the human search label in case-sensitive lexical ascending order
for every input; the network map generator applies no final sort and emits
its features in route first-encounter order. -/
theorem interactive_features_sorted (trips : List TripRow) (visits : List VisitRow)
    (stops : List StopRow) (routes : List RouteRow) :
    (interactiveFeatures trips visits stops routes).Sorted searchLe ∧
    (networkFeatures exTripsBA exVisitsBA exStopsBA exRoutesBA).map NFeature.search_key =
      ["B (Outbound)", "A (Outbound)"] := by
  constructor
  · unfold interactiveFeatures
    exact List.sorted_insertionSort searchLe _
  · decide

/-- Counterexample for C9 as stated: the network map's final feature list
puts the label `"B (Outbound)"` before `"A (Outbound)"`, although
`"A (Outbound)"` precedes it in case-sensitive lexical order — the network
generator never sorts. -/
theorem network_features_unsorted_cex :
    (networkFeatures exTripsBA exVisitsBA exStopsBA exRoutesBA).map NFeature.search_key =
      ["B (Outbound)", "A (Outbound)"] ∧
    strLe "A (Outbound)" "B (Outbound)" ∧
    ¬ strLe "B (Outbound)" "A (Outbound)" := by
  refine ⟨by decide, by decide, by decide⟩

/-! ## C8: trips with no resolvable coordinates -/

/-- C8 (amended): a representative trip with stop-time rows is never
excluded, even when every visit lacks a parseable coordinate: its geometry
entry is still built, with an empty coordinate list and coordinate count
zero.  Moreover feature generation proceeds on such entries as usual: a
route with a non-empty direction map emits at least one feature (merged or
per-direction, following the merge decision), and when every direction's
coordinate list is empty, every emitted feature carries an empty
coordinate list — so a route with no resolvable geometry contributes
empty-geometry features, not zero features. -/
theorem all_unparseable_coords_empty_geometry (visits : List VisitRow)
    (stops : List StopRow) (tid : String)
    (hne : tripJoinedVisits visits stops tid ≠ [])
    (hnc : ∀ v ∈ tripJoinedVisits visits stops tid,
      v.stop_lat = none ∨ v.stop_lon = none) :
    ((buildGeom visits stops tid).map DirGeom.coords = some [] ∧
     (buildGeom visits stops tid).map DirGeom.count = some 0) ∧
    (∀ (rid rname : String) (dirs : List (String × DirGeom)),
      dirs ≠ [] → featuresForRoute rid rname dirs ≠ []) ∧
    (∀ (rid rname : String) (dirs : List (String × DirGeom)),
      (∀ p ∈ dirs, (p.2 : DirGeom).coords = []) →
      ∀ f ∈ featuresForRoute rid rname dirs, f.coordinates = []) := by
  refine ⟨?_, ?_, ?_⟩
  · rcases hts : tripJoinedVisits visits stops tid with _ | ⟨first, rest⟩
    · exact absurd hts hne
    · have hcoords : (first :: rest).filterMap (fun v =>
          match v.stop_lon, v.stop_lat with
          | some lo, some la => some ((lo, la) : ℚ × ℚ)
          | _, _ => none) = [] := by
        rw [List.filterMap_eq_nil_iff]
        intro v hv
        rcases hnc v (hts ▸ hv) with h | h <;>
          rcases hlo : v.stop_lon with _ | lo <;> rcases hla : v.stop_lat with _ | la <;>
            simp_all
      simp only [buildGeom, hts, hcoords, Option.map_some]
      exact ⟨rfl, rfl⟩
  · intro rid rname dirs hd
    unfold featuresForRoute
    rcases h0 : lookupDir dirs "0" with _ | d0 <;>
      rcases h1 : lookupDir dirs "1" with _ | d1 <;> dsimp only
    · simpa [List.map_eq_nil_iff] using hd
    · simpa [List.map_eq_nil_iff] using hd
    · simpa [List.map_eq_nil_iff] using hd
    · by_cases hov : calculate_route_overlap d0.stop_ids d1.stop_ids > MERGE_THRESHOLD
      · simp [hov]
      · simpa [hov, List.map_eq_nil_iff] using hd
  · intro rid rname dirs hall f hf
    have hlook : ∀ d0 key, lookupDir dirs key = some d0 → d0.coords = [] := by
      intro d0 key hk
      unfold lookupDir at hk
      obtain ⟨p, hp, hp2⟩ := Option.map_eq_some'.mp hk
      exact hp2 ▸ hall p (List.mem_of_find?_eq_some hp)
    have hmap : f ∈ dirs.map (fun p =>
        ({ id := rid ++ "_" ++ p.1
           route_name := rname
           search_text := rname ++ " (" ++ (if p.1 = "0" then "Outbound" else "Inbound") ++ ")"
           desc := p.2.startName ++ " → " ++ p.2.endName
           stops_count := p.2.count
           ftype := "one_way"
           coordinates := p.2.coords } : Feature)) → f.coordinates = [] := by
      intro hm
      obtain ⟨p, hp, rfl⟩ := List.mem_map.mp hm
      exact hall p hp
    unfold featuresForRoute at hf
    rcases h0 : lookupDir dirs "0" with _ | d0 <;>
      rcases h1 : lookupDir dirs "1" with _ | d1 <;> rw [h0, h1] at hf <;> dsimp only at hf
    · exact hmap hf
    · exact hmap hf
    · exact hmap hf
    · by_cases hov : calculate_route_overlap d0.stop_ids d1.stop_ids > MERGE_THRESHOLD
      · rw [if_pos hov] at hf
        rcases List.mem_cons.mp hf with rfl | hbad
        · show (if d0.count ≥ d1.count then d0 else d1).coords = []
          by_cases hc : d0.count ≥ d1.count
          · rw [if_pos hc]
            exact hlook d0 "0" h0
          · rw [if_neg hc]
            exact hlook d1 "1" h1
        · simp at hbad
      · rw [if_neg hov] at hf
        exact hmap hf

/-- Witness for C8's amended theorem at the concrete no-coordinate feed:
the geometry entry is built empty, and the route's single-direction map
still emits features, each with an empty coordinate list. -/
theorem all_unparseable_coords_empty_geometry_witness :
    ((buildGeom exVisitsNoCoord exStopsNoCoord "t1").map DirGeom.coords = some [] ∧
     (buildGeom exVisitsNoCoord exStopsNoCoord "t1").map DirGeom.count = some 0) ∧
    featuresForRoute "R1" "7A"
      [("0", ⟨[], {"s1"}, "Stop One", "Stop One", 0⟩)] ≠ [] :=
  ⟨(all_unparseable_coords_empty_geometry exVisitsNoCoord exStopsNoCoord "t1"
      (by decide) (by decide)).1,
   (all_unparseable_coords_empty_geometry exVisitsNoCoord exStopsNoCoord "t1"
      (by decide) (by decide)).2.1 "R1" "7A"
      [("0", ⟨[], {"s1"}, "Stop One", "Stop One", 0⟩)] (by decide)⟩

/-- Counterexample for C8 as stated: the route whose only trip's only visit
has unparseable coordinates still contributes one output feature (with an
empty coordinate list) — it is not silently dropped. -/
theorem no_coord_route_still_emits_cex :
    (interactiveFeatures exTripsNoCoord exVisitsNoCoord exStopsNoCoord exRoutesNoCoord).length = 1 ∧
    (interactiveFeatures exTripsNoCoord exVisitsNoCoord exStopsNoCoord exRoutesNoCoord).map
      Feature.coordinates = [[]] ∧
    (tripJoinedVisits exVisitsNoCoord exStopsNoCoord "t1").map
      (fun v => (v.stop_lat, v.stop_lon)) = [(none, none)] := by
  refine ⟨by decide, by decide, by decide⟩

/-! ## C2: the direct-itinerary scan -/

theorem firstHit_eq_none (oS : List String) :
    ∀ l, firstHit oS l = none → ∀ j, j < l.length → l.getD j "" ∉ oS := by
  intro l
  induction l with
  | nil => intro _ j hj; simp at hj
  | cons s rest ih =>
    intro h j hj
    by_cases hs : s ∈ oS
    · simp [firstHit, hs] at h
    · rw [firstHit, if_neg hs, Option.map_eq_none'] at h
      match j with
      | 0 => simpa using hs
      | j2 + 1 => exact ih h j2 (by simpa using hj)

theorem firstHit_eq_some (oS : List String) :
    ∀ l k, firstHit oS l = some k →
      k < l.length ∧ l.getD k "" ∈ oS ∧ ∀ j, j < k → l.getD j "" ∉ oS := by
  intro l
  induction l with
  | nil => intro k hk; simp [firstHit] at hk
  | cons s rest ih =>
    intro k hk
    by_cases hs : s ∈ oS
    · rw [firstHit, if_pos hs, Option.some_inj] at hk
      subst hk
      exact ⟨by simp, by simpa using hs, by omega⟩
    · rw [firstHit, if_neg hs, Option.map_eq_some'] at hk
      obtain ⟨k0, hk0, rfl⟩ := hk
      obtain ⟨h1, h2, h3⟩ := ih k0 hk0
      refine ⟨by simpa using h1, by simpa using h2, ?_⟩
      intro j hj
      match j with
      | 0 => simpa using hs
      | j2 + 1 => exact h3 j2 (by omega)

theorem lastHit_eq_none (dS : List String) :
    ∀ l, lastHit dS l = none → ∀ j, j < l.length → l.getD j "" ∉ dS := by
  intro l
  induction l with
  | nil => intro _ j hj; simp at hj
  | cons s rest ih =>
    intro h j hj
    rcases hrest : lastHit dS rest with _ | k
    · rw [lastHit, hrest] at h
      by_cases hs : s ∈ dS
      · rw [if_pos hs] at h; cases h
      · match j with
        | 0 => simpa using hs
        | j2 + 1 => exact ih hrest j2 (by simpa using hj)
    · rw [lastHit, hrest] at h; cases h

theorem lastHit_eq_some (dS : List String) :
    ∀ l k, lastHit dS l = some k →
      k < l.length ∧ l.getD k "" ∈ dS ∧
        ∀ j, k < j → j < l.length → l.getD j "" ∉ dS := by
  intro l
  induction l with
  | nil => intro k hk; simp [lastHit] at hk
  | cons s rest ih =>
    intro k hk
    rcases hrest : lastHit dS rest with _ | k0
    · rw [lastHit, hrest] at hk
      by_cases hs : s ∈ dS
      · rw [if_pos hs, Option.some_inj] at hk
        subst hk
        refine ⟨by simp, by simpa using hs, ?_⟩
        intro j hj hjlen
        match j with
        | j2 + 1 => exact lastHit_eq_none dS rest hrest j2 (by simpa using hjlen)
      · rw [if_neg hs] at hk; cases hk
    · rw [lastHit, hrest, Option.some_inj] at hk
      subst hk
      obtain ⟨h1, h2, h3⟩ := ih k0 hrest
      refine ⟨by simpa using h1, by simpa using h2, ?_⟩
      intro j hj hjlen
      match j with
      | j2 + 1 => exact h3 j2 (by omega) (by simpa using hjlen)

theorem lastDestFrom_eq (dS : List String) :
    ∀ l i d, lastDestFrom dS l i d =
      (match lastHit dS l with
       | some k => some (i + k)
       | none => d) := by
  intro l
  induction l with
  | nil => intro i d; rfl
  | cons s rest ih =>
    intro i d
    rw [lastDestFrom, ih]
    rcases hrest : lastHit dS rest with _ | k0
    · simp only [lastHit, hrest]
      by_cases hs : s ∈ dS <;> simp [hs]
    · simp only [lastHit, hrest]
      congr 1
      omega

theorem directScanAux_some (oS dS : List String) :
    ∀ l i oi d, oi < i →
      directScanAux oS dS l i (some oi) d = (some oi, lastDestFrom dS l i d) := by
  intro l
  induction l with
  | nil => intro i oi d _; rfl
  | cons s rest ih =>
    intro i oi d hlt
    have he : (if s ∈ dS ∧ oi < i then some i else d) =
        (if s ∈ dS then some i else d) := by
      by_cases hs : s ∈ dS
      · rw [if_pos ⟨hs, hlt⟩, if_pos hs]
      · rw [if_neg (fun hc => hs hc.1), if_neg hs]
    rw [directScanAux, he, lastDestFrom,
      ih (i + 1) oi (if s ∈ dS then some i else d) (by omega)]

theorem directScanAux_none (oS dS : List String) :
    ∀ l i d, directScanAux oS dS l i none d =
      (match firstHit oS l with
       | none => (none, d)
       | some k => (some (i + k), lastDestFrom dS (l.drop (k + 1)) (i + k + 1) d)) := by
  intro l
  induction l with
  | nil => intro i d; rfl
  | cons s rest ih =>
    intro i d
    by_cases hs : s ∈ oS
    · rw [directScanAux, if_pos hs,
        if_neg (fun hc : s ∈ dS ∧ i < i => absurd hc.2 (lt_irrefl i)),
        directScanAux_some oS dS rest (i + 1) i d (by omega)]
      simp [firstHit, hs, List.drop_succ_cons]
    · rw [directScanAux, if_neg hs, ih (i + 1) d]
      rcases hrest : firstHit oS rest with _ | k0
      · simp [firstHit, hs, hrest]
      · have e1 : i + 1 + k0 = i + (k0 + 1) := by omega
        simp [firstHit, hs, hrest, List.drop_succ_cons, e1]

/-- C2 (amended): when a direct itinerary is recorded for a route, its
start index is the index of the first stop of the route's ordered sequence
belonging to the origin place; its end index is the index of the *last*
stop belonging to the destination place that occurs after that start index
(each later destination hit overwrites the recorded index); and its
duration is the sum of the per-segment travel-time estimates (with the
3-minute fallback for missing entries) over the segments between those two
indices. -/
theorem direct_itinerary_spec (stops oS dS : List String) (tt : List Nat)
    (seg : DirectSegment)
    (h : directItinerary stops oS dS tt = some seg) :
    (seg.startIdx < stops.length ∧ stops.getD seg.startIdx "" ∈ oS ∧
      ∀ j, j < seg.startIdx → stops.getD j "" ∉ oS) ∧
    (seg.startIdx < seg.endIdx ∧ seg.endIdx < stops.length ∧
      stops.getD seg.endIdx "" ∈ dS) ∧
    (∀ j, seg.startIdx < j → j < stops.length → stops.getD j "" ∈ dS →
      j ≤ seg.endIdx) ∧
    seg.duration = segmentDuration tt seg.startIdx seg.endIdx := by
  have hgetD : ∀ (l : List String) (n m : Nat),
      (l.drop n).getD m "" = l.getD (n + m) "" := by
    intro l n m
    simp [List.getD_eq_getElem?_getD, List.getElem?_drop]
  unfold directItinerary directScan at h
  rw [directScanAux_none] at h
  rcases hf : firstHit oS stops with _ | k <;> rw [hf] at h
  · simp at h
  · dsimp only at h
    rw [lastDestFrom_eq] at h
    rcases hl : lastHit dS (stops.drop (k + 1)) with _ | k2 <;> rw [hl] at h
    · simp at h
    · simp only [Nat.zero_add] at h
      rw [if_pos (by omega)] at h
      have hseg : seg = ⟨k, k + 1 + k2, segmentDuration tt k (k + 1 + k2)⟩ :=
        (Option.some_inj.mp h).symm
      subst hseg
      dsimp only
      obtain ⟨hk1, hk2, hk3⟩ := firstHit_eq_some oS stops k hf
      obtain ⟨hl1, hl2, hl3⟩ := lastHit_eq_some dS (stops.drop (k + 1)) k2 hl
      rw [List.length_drop] at hl1
      rw [hgetD stops (k + 1) k2] at hl2
      refine ⟨⟨hk1, hk2, hk3⟩, ⟨by omega, by omega, hl2⟩, ?_, rfl⟩
      intro j hj1 hj2 hj3
      by_contra hcon
      have hj5 : j - (k + 1) < (stops.drop (k + 1)).length := by
        rw [List.length_drop]; omega
      have hnot := hl3 (j - (k + 1)) (by omega) hj5
      rw [hgetD stops (k + 1) (j - (k + 1))] at hnot
      have e2 : k + 1 + (j - (k + 1)) = j := by omega
      rw [e2] at hnot
      exact hnot hj3

/-- Witness for C2's amended theorem: the concrete scan records the segment
from index 0 to index 2 with duration `7 + 9 = 16`. -/
theorem direct_itinerary_spec_witness :
    (⟨0, 2, 16⟩ : DirectSegment).duration = segmentDuration exScanTimes 0 2 :=
  (direct_itinerary_spec exScanStops exScanOrigin exScanDest exScanTimes
    ⟨0, 2, 16⟩ (by decide)).2.2.2

/-- Counterexample for C2 as stated: with destination stops at indices 1
and 2, the recorded segment ends at index 2 — the last destination hit
after the origin — not at index 1, the first one, and its duration 16 is
the sum up to index 2 rather than the 7 minutes up to index 1. -/
theorem direct_scan_records_last_not_first_cex :
    directItinerary exScanStops exScanOrigin exScanDest exScanTimes = some ⟨0, 2, 16⟩ ∧
    exScanStops.getD 1 "" ∈ exScanDest ∧ (0 : Nat) < 1 ∧ (1 : Nat) ≠ 2 ∧
    segmentDuration exScanTimes 0 1 = 7 := by
  refine ⟨by decide, by decide, by decide, by decide, by decide⟩

/-! ## C6: the planner's per-route representative-trip selection -/

theorem bestTripAux_max :
    ∀ (l : List (String × Nat)) (acc : Option (String × Nat)) (p : String × Nat),
      bestTripAux l acc = some p →
      (p ∈ l ∨ acc = some p) ∧ (∀ q ∈ l, q.2 ≤ p.2) ∧
      (∀ a0, acc = some a0 → a0.2 ≤ p.2) := by
  intro l
  induction l with
  | nil =>
    intro acc p hp
    rw [bestTripAux] at hp
    refine ⟨Or.inr hp, by simp, ?_⟩
    intro a0 ha
    rw [ha, Option.some_inj] at hp
    rw [hp]
  | cons tc rest ih =>
    obtain ⟨t, c⟩ := tc
    intro acc p hp
    rcases acc with _ | ⟨t0, c0⟩
    · rw [bestTripAux] at hp
      obtain ⟨hm, hr, ha⟩ := ih (some (t, c)) p hp
      have hc_le : c ≤ p.2 := ha (t, c) rfl
      refine ⟨?_, ?_, ?_⟩
      · rcases hm with hm | hm
        · exact Or.inl (List.mem_cons_of_mem _ hm)
        · exact Or.inl (List.mem_cons.mpr (Or.inl (Option.some_inj.mp hm).symm))
      · intro q hq
        rcases List.mem_cons.mp hq with rfl | hq2
        · exact hc_le
        · exact hr q hq2
      · intro a0 ha0; cases ha0
    · rw [bestTripAux] at hp
      by_cases hcc : c0 < c
      · rw [if_pos hcc] at hp
        obtain ⟨hm, hr, ha⟩ := ih (some (t, c)) p hp
        have hc_le : c ≤ p.2 := ha (t, c) rfl
        refine ⟨?_, ?_, ?_⟩
        · rcases hm with hm | hm
          · exact Or.inl (List.mem_cons_of_mem _ hm)
          · exact Or.inl (List.mem_cons.mpr (Or.inl (Option.some_inj.mp hm).symm))
        · intro q hq
          rcases List.mem_cons.mp hq with rfl | hq2
          · exact hc_le
          · exact hr q hq2
        · intro a0 ha0
          rw [Option.some_inj] at ha0
          subst ha0
          show c0 ≤ p.2
          omega
      · rw [if_neg hcc] at hp
        obtain ⟨hm, hr, ha⟩ := ih (some (t0, c0)) p hp
        have h0_le : c0 ≤ p.2 := ha (t0, c0) rfl
        refine ⟨?_, ?_, ?_⟩
        · rcases hm with hm | hm
          · exact Or.inl (List.mem_cons_of_mem _ hm)
          · exact Or.inr hm
        · intro q hq
          rcases List.mem_cons.mp hq with rfl | hq2
          · show c ≤ p.2
            omega
          · exact hr q hq2
        · intro a0 ha0
          rw [Option.some_inj] at ha0
          subst ha0
          exact h0_le

theorem bestTripAux_stay :
    ∀ (l : List (String × Nat)) (t0 : String) (c0 : Nat) (p : String × Nat),
      bestTripAux l (some (t0, c0)) = some p → p.2 ≤ c0 → p = (t0, c0) := by
  intro l
  induction l with
  | nil =>
    intro t0 c0 p hp _
    rw [bestTripAux, Option.some_inj] at hp
    exact hp.symm
  | cons tc rest ih =>
    obtain ⟨t, c⟩ := tc
    intro t0 c0 p hp hle
    rw [bestTripAux] at hp
    by_cases hcc : c0 < c
    · rw [if_pos hcc] at hp
      have hc_le : c ≤ p.2 := (bestTripAux_max rest (some (t, c)) p hp).2.2 (t, c) rfl
      exact absurd hle (by omega)
    · rw [if_neg hcc] at hp
      exact ih t0 c0 p hp hle

theorem bestTripAux_tiebreak :
    ∀ (l : List (String × Nat)) (acc : Option (String × Nat)) (p : String × Nat),
      l.Pairwise (fun a b => strLe a.1 b.1) →
      (∀ a0, acc = some a0 → ∀ q ∈ l, strLe a0.1 q.1) →
      bestTripAux l acc = some p →
      ∀ q ∈ l, q.2 = p.2 → strLe p.1 q.1 := by
  intro l
  induction l with
  | nil => intro acc p _ _ _ q hq; simp at hq
  | cons tc rest ih =>
    obtain ⟨t, c⟩ := tc
    intro acc p hpair hacc hp q hq hq2
    have hpair2 := (List.pairwise_cons.mp hpair).2
    have hhead : ∀ q2 ∈ rest, strLe t q2.1 := (List.pairwise_cons.mp hpair).1
    rcases acc with _ | ⟨t0, c0⟩
    · rw [bestTripAux] at hp
      rcases List.mem_cons.mp hq with rfl | hq3
      · have hq2b : c = p.2 := hq2
        have hpe : p = (t, c) := bestTripAux_stay rest t c p hp (by omega)
        rw [hpe]
        exact IsRefl.refl t
      · refine ih (some (t, c)) p hpair2 ?_ hp q hq3 hq2
        intro a0 ha
        rw [Option.some_inj] at ha
        subst ha
        exact hhead
    · have hacc0 : ∀ q2 ∈ (t, c) :: rest, strLe t0 q2.1 := hacc (t0, c0) rfl
      rw [bestTripAux] at hp
      by_cases hcc : c0 < c
      · rw [if_pos hcc] at hp
        rcases List.mem_cons.mp hq with rfl | hq3
        · have hq2b : c = p.2 := hq2
          have hpe : p = (t, c) := bestTripAux_stay rest t c p hp (by omega)
          rw [hpe]
          exact IsRefl.refl t
        · refine ih (some (t, c)) p hpair2 ?_ hp q hq3 hq2
          intro a0 ha
          rw [Option.some_inj] at ha
          subst ha
          exact hhead
      · rw [if_neg hcc] at hp
        rcases List.mem_cons.mp hq with rfl | hq3
        · have hq2b : c = p.2 := hq2
          have hpe : p = (t0, c0) := bestTripAux_stay rest t0 c0 p hp (by omega)
          rw [hpe]
          exact hacc0 (t, c) (List.mem_cons_self _ _)
        · refine ih (some (t0, c0)) p hpair2 ?_ hp q hq3 hq2
          intro a0 ha
          rw [Option.some_inj] at ha
          subst ha
          intro q2 hq2m
          exact hacc0 q2 (List.mem_cons_of_mem _ hq2m)

theorem routeRepTripsFold_cell (trips : List TripRow) (R : String) (hR : R ≠ "") :
    ∀ (items : List (String × Nat)) (m : String → Option (String × Nat)),
      routeRepTripsFold trips items m R =
        bestTripAux (items.filter (fun it => tripToRoute trips it.1 == some R)) (m R) := by
  intro items
  induction items with
  | nil => intro m; rfl
  | cons it rest ih =>
    obtain ⟨tid, cnt⟩ := it
    intro m
    rw [routeRepTripsFold]
    rcases htr : tripToRoute trips tid with _ | rid
    · have hpred : (tripToRoute trips (tid, cnt).1 == some R) = false := by
        rw [htr]; rfl
      dsimp only
      rw [List.filter_cons, hpred, if_neg Bool.false_ne_true]
      exact ih m
    · by_cases hrid : rid = ""
      · subst hrid
        have hpred : (tripToRoute trips (tid, cnt).1 == some R) = false := by
          rw [htr]
          simp [Ne.symm hR]
        dsimp only
        rw [if_pos rfl, List.filter_cons, hpred, if_neg Bool.false_ne_true]
        exact ih m
      · by_cases hRR : rid = R
        · subst hRR
          have hpred : (tripToRoute trips (tid, cnt).1 == some rid) = true := by
            rw [htr]; simp
          dsimp only
          rw [if_neg hrid, ih (plannerUpd m rid tid cnt), List.filter_cons, hpred,
            if_pos rfl]
          rcases hmr : m rid with _ | ⟨t0, c0⟩
          · have hcell : plannerUpd m rid tid cnt rid = some (tid, cnt) := by
              unfold plannerUpd
              rw [if_pos rfl, hmr]
            rw [hcell, bestTripAux]
          · have hcell : plannerUpd m rid tid cnt rid =
                (if c0 < cnt then some (tid, cnt) else some (t0, c0)) := by
              unfold plannerUpd
              rw [if_pos rfl, hmr]
            rw [hcell, bestTripAux]
        · have hpred : (tripToRoute trips (tid, cnt).1 == some R) = false := by
            rw [htr]; simp [hRR]
          dsimp only
          rw [if_neg hrid, ih (plannerUpd m rid tid cnt), List.filter_cons, hpred,
            if_neg Bool.false_ne_true]
          have hcell : plannerUpd m rid tid cnt R = m R := by
            unfold plannerUpd
            rw [if_neg (fun hc : R = rid => hRR hc.symm)]
          rw [hcell]

theorem tripCountItems_pairwise (visits : List VisitRow) :
    (tripCountItems visits).Pairwise (fun a b => strLe a.1 b.1) := by
  unfold tripCountItems sortedTripIds
  rw [List.pairwise_map]
  exact List.sorted_insertionSort strLe _

/-- C6 (amended): the planner's `routeStopSequence` for a route id is the
ordered stop-id sequence of the trip selected per route id alone, ignoring
the direction flag: the trip with the greatest stop-visit count among the
route's trips appearing in `stop_times`, with ties broken by the smallest
trip id (the counts are iterated in ascending trip-id order and replaced
only on a strictly greater count).  This selection is independent of
§4.1's per-`(route, direction)` selection and need not coincide with it. -/
theorem planner_route_selection (trips : List TripRow) (visits : List VisitRow)
    (R t : String) (c : Nat) (hR : R ≠ "")
    (h : route_rep_trips trips visits R = some (t, c)) :
    route_stops trips visits R = some (routeStopsOfTrip visits t) ∧
    tripToRoute trips t = some R ∧
    c = visitCount visits t ∧
    (∀ t2 c2, (t2, c2) ∈ tripCountItems visits → tripToRoute trips t2 = some R →
      c2 ≤ c) ∧
    (∀ t2 c2, (t2, c2) ∈ tripCountItems visits → tripToRoute trips t2 = some R →
      c2 = c → strLe t t2) := by
  have h0 : route_stops trips visits R = some (routeStopsOfTrip visits t) := by
    unfold route_stops
    rw [h]
    rfl
  have hcell := routeRepTripsFold_cell trips R hR (tripCountItems visits) (fun _ => none)
  unfold route_rep_trips at h
  rw [hcell] at h
  obtain ⟨hmem, hmax, _⟩ := bestTripAux_max _ none (t, c) h
  have hmem2 : (t, c) ∈ (tripCountItems visits).filter
      (fun it => tripToRoute trips it.1 == some R) := by
    rcases hmem with hm | hbad
    · exact hm
    · exact Option.noConfusion hbad
  have hmemItems := (List.mem_filter.mp hmem2).1
  have hroute : tripToRoute trips t = some R := by
    have h2 := (List.mem_filter.mp hmem2).2
    simpa using h2
  have hcv : c = visitCount visits t := by
    unfold tripCountItems at hmemItems
    obtain ⟨a, _, heq⟩ := List.mem_map.mp hmemItems
    rw [Prod.mk.injEq] at heq
    obtain ⟨rfl, h2⟩ := heq
    exact h2.symm
  refine ⟨h0, hroute, hcv, ?_, ?_⟩
  · intro t2 c2 hm2 hr2
    exact hmax (t2, c2) (List.mem_filter.mpr ⟨hm2, by simp [hr2]⟩)
  · intro t2 c2 hm2 hr2 hc2
    have hpair := List.Pairwise.filter
      (fun it => tripToRoute trips it.1 == some R) (tripCountItems_pairwise visits)
    have htie := bestTripAux_tiebreak _ none (t, c) hpair
      (fun a0 ha => Option.noConfusion ha) h
    exact htie (t2, c2) (List.mem_filter.mpr ⟨hm2, by simp [hr2]⟩) hc2

/-- Witness for C6's amended theorem: on the two-direction route `R` the
planner selects trip `t1` and serves its full stop sequence. -/
theorem planner_route_selection_witness :
    route_stops exTripsR exVisitsR "R" = some (routeStopsOfTrip exVisitsR "t1") :=
  (planner_route_selection exTripsR exVisitsR "R" "t1" 3 (by decide) (by decide)).1

/-- Counterexample for C6 as stated: for route `R`, §4.1's selection keeps
trip `t0` as the representative of direction `"0"` (stop sequence
`["a","b"]`), but the planner-side `routeStopSequence` for `R` is the trip `t1`
sequence `["c","d","e"]` — the planner selects per route only and does not
reuse the per-`(route, direction)` selection. -/
theorem planner_vs_engine_selection_cex :
    route_stops exTripsR exVisitsR "R" = some ["c", "d", "e"] ∧
    get_representative_trips exTripsR exVisitsR =
      [⟨"t1", "R", "1", 3⟩, ⟨"t0", "R", "0", 2⟩] ∧
    routeStopsOfTrip exVisitsR "t0" = ["a", "b"] ∧
    (["a", "b"] : List String) ≠ ["c", "d", "e"] := by
  refine ⟨by decide, by decide, by decide, by decide⟩
